import Mathlib

/-!
Verification of the `nomic` Atlas client's bulk upload pipeline and metadata
validator, as implemented in `nomic/project.py` (class `AtlasClass` /
`AtlasProject`) and `nomic/atlas.py`.

The shallow embedding below translates the relevant Python code into
executable Lean definitions:

* The shard planner (`add_text` / `add_embeddings`): effective shard size
  `min(shard_size, 5000)` and the offsets `range(0, N, shard_size)`.
* The upload coordinator loop of `AtlasProject.add_text`
  (project.py lines 1099-1169) and `AtlasProject.add_embeddings`
  (lines 1250-1320).  The two loop bodies are line-for-line identical
  (tallies, progress bar, response classification, retry and abort logic),
  so they are modelled once (`processOne` / `runLoop`); only the epilogues
  after the loop differ (`addTextOutcome` vs `addEmbeddingsOutcome`).
* The metadata validator
  `AtlasClass._validate_and_correct_user_supplied_metadata`
  (project.py lines 162-247).

Concurrency: per the code, a single coordinating thread drains completion
events (`concurrent.futures.wait` + a `for` loop over `done`) and is the only
mutator of the tallies and of the `futures` dict.  The embedding therefore
serializes completion handling: the outstanding futures are a FIFO queue of
`(offset, attempt)` tasks, one completion is classified per step, and
resubmissions (504 retries) and futures left in the dict (the ID-conflict
`continue`, which skips `del futures[future]`) go to the back of the queue.
The transport is a function `Nat → Nat → Response` giving the response of the
future submitted for a given shard offset and attempt number; re-examining the
same (never removed) future yields the same response, while a resubmission is
a new future with the next attempt number.  Step-level theorems quantify over
arbitrary queue states and are therefore schedule-independent; run-level
theorems use the canonical drain order.

Python float arithmetic: the single floating-point computation in the loop,
`errors_504 / (failed + succeeded + errors_504) > 0.25`, is modelled by the
exact rational comparison `4 * errors_504 > failed + succeeded + errors_504`;
the two coincide for all counter values below 2^52, far beyond any reachable
count.
-/

/-- A parsed JSON response body, as far as the client logic can observe it.
The coordinator's classification applies the Python membership test
`phrase in response.json()`: substring search when the parsed body is a JSON
string, key membership when it is a JSON object.  Objects are modelled flat
with string values, which is the shape the server's `{"detail": ...}` error
bodies take; other JSON shapes (arrays, numbers) are never produced by the
upload endpoints and are not modelled. -/
inductive Json where
  | jstr (s : String)
  | jobj (entries : List (String × String))
deriving DecidableEq, Repr

/-- Is `needle` a prefix of `hay`?  (Helper for Python's substring test.) -/
def isPrefB : List Char → List Char → Bool
  | [], _ => true
  | _ :: _, [] => false
  | a :: as, b :: bs => a = b && isPrefB as bs

/-- Is `needle` a contiguous substring of `hay`?  This is Python's
`needle in hay` on strings. -/
def infixB (needle : List Char) : List Char → Bool
  | [] => isPrefB needle []
  | hay@(_ :: rest) => isPrefB needle hay || infixB needle rest

/-- Python's membership test `phrase in parsedBody`: substring search for a
string body, key membership for an object body. -/
def pyIn (phrase : String) : Json → Bool
  | .jstr s => infixB phrase.data s.data
  | .jobj entries => entries.any (fun e => e.1 = phrase)

/-- The raw JSON text a body serializes to (used only to state claims about
"the response body contains a substring"; the client never looks at it). -/
def Json.rawText : Json → String
  | .jstr s => "\x22" ++ s ++ "\x22"
  | .jobj entries =>
      "\x7b" ++ String.intercalate ", "
        (entries.map (fun e => "\x22" ++ e.1 ++ "\x22: \x22" ++ e.2 ++ "\x22")) ++ "\x7d"

/-- An HTTP response as the coordinator observes it: the status code and the
result of `response.json()` (`none` when the body does not parse as JSON and
`json()` raises `JSONDecodeError`). -/
structure Response where
  status : Nat
  body : Option Json
deriving DecidableEq, Repr

/-- project.py line 1114 / 1265: organization datum-limit phrase. -/
def orgLimitPhrase : String := "more datums exceeds your organization limit"

/-- project.py line 1116 / 1267: transaction-lock phrase. -/
def lockPhrase : String := "Project transaction lock is held"

/-- project.py line 1120 / 1271: ID-conflict phrase. -/
def conflictPhrase : String := "Insert failed due to ID conflict"

/-- The coordinator's mutable state during one upload call: the tallies
`failed`, `succeeded`, `errors_504`, the number of `pbar.update(1)` calls
made so far, and the queue of outstanding futures as `(offset, attempt)`
pairs. -/
structure UploadState where
  failed : Nat
  succeeded : Nat
  errors504 : Nat
  pbar : Nat
  queue : List (Nat × Nat)
deriving DecidableEq, Repr

/-- Outcome of classifying one completed future. -/
inductive StepOut where
  | next (st : UploadState)
  | retFalse (st : UploadState)
  | raiseLock (st : UploadState)
  | raiseOverload (st : UploadState)
deriving DecidableEq, Repr

/-- Classify one completed future, exactly following the response handling in
`add_text` (project.py lines 1109-1155) / `add_embeddings` (lines 1260-1306):

* 200 → `succeeded += shard_size; pbar.update(1)`, future removed;
* non-200, body parses: organization-limit phrase → `return False`;
  lock phrase → `raise Exception(...)`; ID-conflict phrase → `continue`,
  which skips `del futures[future]`, so the future stays outstanding
  (modelled: task moves to the back of the queue, nothing else changes);
  no phrase → fall through the `try` with no action, future removed;
* non-200, body unparseable (`JSONDecodeError`):
  413 → `failed += shard_size; pbar.update(1)`, removed;
  504 → `errors_504 += shard_size`, then if
  `errors_504/(failed+succeeded+errors_504) > 0.25 and errors_504 > 3*shard_size`
  → `raise RuntimeError(...)`, else resubmit the same offset as a new future;
  other → `failed += shard_size; pbar.update(1)`, removed.

The empty-queue case is unreachable: `runLoop` only calls this with a
non-empty queue. -/
def processOne (s : Nat) (tr : Nat → Nat → Response) (st : UploadState) : StepOut :=
  match st.queue with
  | [] => .next st
  | (o, a) :: rest =>
    let r := tr o a
    if r.status = 200 then
      .next { st with succeeded := st.succeeded + s, pbar := st.pbar + 1, queue := rest }
    else
      match r.body with
      | some b =>
        if pyIn orgLimitPhrase b then .retFalse st
        else if pyIn lockPhrase b then .raiseLock st
        else if pyIn conflictPhrase b then .next { st with queue := rest ++ [(o, a)] }
        else .next { st with queue := rest }
      | none =>
        if r.status = 413 then
          .next { st with failed := st.failed + s, pbar := st.pbar + 1, queue := rest }
        else if r.status = 504 then
          let e := st.errors504 + s
          if 4 * e > st.failed + st.succeeded + e ∧ e > 3 * s then
            .raiseOverload { st with errors504 := e, queue := rest }
          else
            .next { st with errors504 := e, queue := rest ++ [(o, a + 1)] }
        else
          .next { st with failed := st.failed + s, pbar := st.pbar + 1, queue := rest }

/-- Result of the `while futures:` drain loop, with fuel to account for the
possibility that the loop never terminates. -/
inductive RunResult where
  | retTrue (st : UploadState)
  | retFalse (st : UploadState)
  | raisedLock (st : UploadState)
  | raisedOverload (st : UploadState)
  | fuelOut (st : UploadState)
deriving DecidableEq, Repr

/-- The `while futures:` loop: drain one completion per step until the
futures dict is empty (fall through to the epilogue, `retTrue`), a
`return False` fires, an exception is raised, or the fuel runs out. -/
def runLoop (s : Nat) (tr : Nat → Nat → Response) : Nat → UploadState → RunResult
  | 0, st => .fuelOut st
  | fuel + 1, st =>
    if st.queue.isEmpty then .retTrue st
    else
      match processOne s tr st with
      | .next st' => runLoop s tr fuel st'
      | .retFalse st' => .retFalse st'
      | .raiseLock st' => .raisedLock st'
      | .raiseOverload st' => .raisedOverload st'

/-- Effective shard size: `shard_size = min(shard_size, 5000)`
(project.py line 1048 / 1196, atlas.py line 233). -/
def effectiveShardSize (S : Nat) : Nat := min S 5000

/-- The shard offsets `range(0, N, s)` used to submit futures
(`for i in range(0, len(data), shard_size)`, project.py line 1103 / 1254):
`ceil(N / s)` offsets `0, s, 2s, ...`. -/
def shardOffsets (N s : Nat) : List Nat :=
  (List.range ((N + s - 1) / s)).map (· * s)

/-- The shard plan: shard `i` carries the slice `data[i : i + shard_size]`,
i.e. the half-open range `[i, min (i + s) N)` (project.py line 1081 / 1223). -/
def shardPlan (N S : Nat) : List (Nat × Nat) :=
  (shardOffsets N (effectiveShardSize S)).map
    (fun i => (i, min (i + effectiveShardSize S) N))

/-- The initial coordinator state of one upload call: zero tallies, no
progress, one pending future per shard offset, attempt number 0. -/
def initUpload (N s : Nat) : UploadState :=
  ⟨0, 0, 0, 0, (shardOffsets N s).map (fun o => (o, 0))⟩

/-- Python-level errors an upload call can raise. -/
inductive PyRunError where
  | lockHeld        -- `raise Exception("Project is currently indexing ...")`
  | overload        -- `raise RuntimeError("Atlas is under high load ...")`
  | typeErrorLenInt -- `TypeError: object of type 'int' has no len()`
deriving DecidableEq, Repr

/-- The overall result of `AtlasProject.add_text`: the drain loop followed by
the epilogue (project.py lines 1157-1169).  The epilogue evaluates
`len(failed) * shard_size` inside the warning f-string when `failed` is
non-zero — but `failed` is an `int`, so `len(failed)` raises `TypeError`.
Otherwise the call returns `True`.  `none` means the loop had not terminated
within `fuel` drain steps. -/
def addTextOutcome (s : Nat) (tr : Nat → Nat → Response) (fuel : Nat)
    (st : UploadState) : Option (Except PyRunError Bool) :=
  match runLoop s tr fuel st with
  | .retTrue st' => if st'.failed ≠ 0 then some (.error .typeErrorLenInt) else some (.ok true)
  | .retFalse _ => some (.ok false)
  | .raisedLock _ => some (.error .lockHeld)
  | .raisedOverload _ => some (.error .overload)
  | .fuelOut _ => none

/-- The overall result of `AtlasProject.add_embeddings`: the same drain loop,
but its epilogue (project.py lines 1308-1320) logs `failed` directly and
always returns `True` when the loop falls through. -/
def addEmbeddingsOutcome (s : Nat) (tr : Nat → Nat → Response) (fuel : Nat)
    (st : UploadState) : Option (Except PyRunError Bool) :=
  match runLoop s tr fuel st with
  | .retTrue _ => some (.ok true)
  | .retFalse _ => some (.ok false)
  | .raisedLock _ => some (.error .lockHeld)
  | .raisedOverload _ => some (.error .overload)
  | .fuelOut _ => none

/-- A metadata value.  The validator only distinguishes strings, ints, floats
and everything else (`isinstance(datum[key], (str, float, int))`); floats and
unsupported values carry their `str()` form, which is all the validator ever
reads of them. -/
inductive Value where
  | vstr (s : String)
  | vint (n : Int)
  | vfloat (sr : String)
  | vother (sr : String)
deriving DecidableEq, Repr

/-- Python's `str()` of a metadata value. -/
def pyStr : Value → String
  | .vstr s => s
  | .vint n => toString n
  | .vfloat sr => sr
  | .vother sr => sr

/-- One metadata record: a Python dict modelled as its insertion-ordered
key/value list (keys are unique in an actual dict). -/
abbrev Record := List (String × Value)

/-- Python dict lookup `datum[key]` / membership `key in datum`
(first matching key; an actual dict has at most one). -/
def lookupKey (k : String) : Record → Option Value
  | [] => none
  | (k', v) :: rest => if k' = k then some v else lookupKey k rest

/-- Modelled from the spec: the default id-field name
(`ATLAS_DEFAULT_ID_FIELD` from `nomic/settings.py`, which is not among the
provided sources).  Only its identity — equality with the project's
`unique_id_field` — matters to the validator. -/
def ATLAS_DEFAULT_ID_FIELD : String := "id_"

/-- Hex digit character for `n % 16`. -/
def hexChar (n : Nat) : Char :=
  if n % 16 < 10 then Char.ofNat (48 + n % 16) else Char.ofNat (87 + n % 16)

/-- `w` hex digits of `n`, most significant first. -/
def hexChars : Nat → Nat → List Char
  | _, 0 => []
  | n, w + 1 => hexChars (n / 16) w ++ [hexChar n]

/-- Modelled from the spec: `str(uuid.uuid4())` (the `uuid` stdlib is an
external collaborator).  A fresh-identifier stream in the canonical hyphenated
8-4-4-4-12 UUID-v4 text format, 36 characters, driven by a counter of how
many ids were injected so far. -/
def uuid4 (ctr : Nat) : String :=
  String.mk (hexChars ctr 8 ++ '-' ::
    (hexChars 0 4 ++ '-' :: ('4' :: hexChars 0 3 ++ '-' ::
      ('a' :: hexChars 0 3 ++ '-' :: hexChars ctr 12))))

/-- Character-code comparison backing Python's string ordering. -/
def listLtB : List Char → List Char → Bool
  | [], [] => false
  | [], _ :: _ => true
  | _ :: _, [] => false
  | a :: as, b :: bs =>
      if a.toNat < b.toNat then true
      else if a = b then listLtB as bs
      else false

/-- Python's `<` on strings: lexicographic by code point. -/
def strLtB (a b : String) : Bool := listLtB a.data b.data

/-- Insert into an ascending list (helper for `sortKeys`). -/
def insertSorted (x : String) : List String → List String
  | [] => [x]
  | y :: ys => if strLtB y x then y :: insertSorted x ys else x :: y :: ys

/-- Python's `sorted(list(datum.keys()))`: ascending insertion sort. -/
def sortKeys (l : List String) : List String := l.foldr insertSorted []

/-- Is `c` an ASCII digit? -/
def isDigitB (c : Char) : Bool := 48 ≤ c.toNat && c.toNat ≤ 57

/-- Numeric value of an ASCII digit. -/
def digVal (c : Char) : Nat := c.toNat - 48

/-- Gregorian leap year. -/
def isLeap (y : Nat) : Bool := (y % 4 == 0 && y % 100 != 0) || y % 400 == 0

/-- Days in month `m` of year `y`. -/
def monthLen (y m : Nat) : Nat :=
  if m = 2 then (if isLeap y then 29 else 28)
  else if m = 4 ∨ m = 6 ∨ m = 9 ∨ m = 11 then 30
  else 31

/-- Modelled from the spec: `datetime.date.fromisoformat` (stdlib, external
collaborator) succeeding — exactly the strings `YYYY-MM-DD` denoting a valid
calendar date with year at least 1. -/
def isIsoDate (s : String) : Bool :=
  match s.data with
  | [y1, y2, y3, y4, h1, m1, m2, h2, d1, d2] =>
      isDigitB y1 && isDigitB y2 && isDigitB y3 && isDigitB y4 &&
      h1 = '-' && isDigitB m1 && isDigitB m2 && h2 = '-' &&
      isDigitB d1 && isDigitB d2 &&
      (let y := ((digVal y1 * 10 + digVal y2) * 10 + digVal y3) * 10 + digVal y4
       let m := digVal m1 * 10 + digVal m2
       let d := digVal d1 * 10 + digVal d2
       decide (1 ≤ y) && decide (1 ≤ m) && decide (m ≤ 12) &&
       decide (1 ≤ d) && decide (d ≤ monthLen y m))
  | _ => false

/-- The logical error conditions the validator can raise
(project.py lines 181-247); the spec's names for them. -/
inductive VErr where
  | idTooLong            -- id field longer than 36 characters (line 192)
  | missingRequiredField -- id field absent, non-default name (line 199; the
                         -- f-string's `datum[project.id_field]` lookup itself
                         -- fails on the absent key, aborting validation there)
  | schemaMismatch       -- differing key sets (line 222)
  | reservedKey          -- key starting with '_' (line 226)
  | invalidTimestamp     -- date-keyed value not ISO-8601 (line 232)
  | emptyValueNotAllowed -- empty string, replacement disabled (line 242)
  | unsupportedType      -- value not str/int/float (line 245)
deriving DecidableEq, Repr

/-- The id-field phase for one record (project.py lines 190-199): if the id
field is present, its `str()` form may be at most 36 characters; if absent
and the project uses the default id-field name, a fresh UUID is appended to
the record (Python dicts append new keys at the end) and the counter advances;
if absent under a custom name, validation fails. -/
def injectId (idF : String) (ctr : Nat) (r : Record) : Except VErr (Record × Nat) :=
  match lookupKey idF r with
  | some v => if 36 < (pyStr v).length then .error .idTooLong else .ok (r, ctr)
  | none =>
      if idF = ATLAS_DEFAULT_ID_FIELD then
        .ok (r ++ [(idF, .vstr (uuid4 ctr))], ctr + 1)
      else .error .missingRequiredField

/-- Python's `key.startswith('_')`: does the string begin with an
underscore? -/
def startsWithUnderscore (s : String) : Bool :=
  match s.data with
  | [] => false
  | c :: _ => c = '_'

/-- The per-key checks of the validator's inner loop (project.py lines
224-247), in source order: reserved `_` prefix; ISO-8601 re-parse for keys
inferred as dates; for text projects, empty strings replaced by the literal
string "null" (or rejected when `replace` is off); and the flat-type check,
which the replaced value "null" passes. -/
def processEntry (m : String) (rep : Bool) (dk : List String)
    (kv : String × Value) : Except VErr (String × Value) :=
  if startsWithUnderscore kv.1 then .error .reservedKey
  else if dk.contains kv.1 && !isIsoDate (pyStr kv.2) then .error .invalidTimestamp
  else if m = "text" ∧ kv.2 = .vstr "" then
    (if rep then .ok (kv.1, .vstr "null") else .error .emptyValueNotAllowed)
  else
    match kv.2 with
    | .vother _ => .error .unsupportedType
    | _ => .ok kv

/-- Run the per-key loop over a record's entries in insertion order, mutating
in place: on an error at some entry, the record is returned as mutated so far
(processed prefix, untouched suffix), mirroring the partially-updated dict the
exception leaves behind. -/
def processKeys (m : String) (rep : Bool) (dk : List String) :
    Record → Record → Except (VErr × Record) Record
  | acc, [] => .ok acc
  | acc, kv :: rest =>
    match processEntry m rep dk kv with
    | .ok kv' => processKeys m rep dk (acc ++ [kv']) rest
    | .error e => .error (e, acc ++ kv :: rest)

/-- Validate one record (one iteration of `for datum in data:`,
project.py lines 187-247): the id phase; then, for the first record only,
fixing the canonical sorted key list and inferring date-like keys (both after
id injection); the key-set comparison; then the per-key loop.  On an error the
record is returned in its state at the raise. -/
def processDatum (m : String) (rep : Bool) (idF : String)
    (mk : Option (List String)) (dk : List String) (ctr : Nat) (r : Record) :
    Except (VErr × Record) (Record × List String × List String × Nat) :=
  match injectId idF ctr r with
  | .error e => .error (e, r)
  | .ok (r1, ctr') =>
    let keys := sortKeys (r1.map Prod.fst)
    let mk' := mk.getD keys
    let dk' :=
      match mk with
      | none => keys.filter (fun k =>
          match lookupKey k r1 with
          | some v => isIsoDate (pyStr v)
          | none => false)
      | some _ => dk
    if keys ≠ mk' then .error (.schemaMismatch, r1)
    else
      match processKeys m rep dk' [] r1 with
      | .error p => .error p
      | .ok r2 => .ok (r2, mk', dk', ctr')

/-- The validator's main loop over the batch.  On an error the payload is the
index of the record whose validation raised, the error, and the batch in its
state at the raise: records before the index fully validated (ids injected,
empties replaced), the failing record as far as it got, later records
untouched — the in-place mutation the caller's list retains after the
exception propagates. -/
def validateLoop (m : String) (rep : Bool) (idF : String) :
    Option (List String) → List String → Nat → List Record →
    Except (Nat × VErr × List Record) (List Record)
  | _, _, _, [] => .ok []
  | mk, dk, ctr, r :: rest =>
    match processDatum m rep idF mk dk ctr r with
    | .error (e, r') => .error (0, e, r' :: rest)
    | .ok (r2, mk', dk', ctr') =>
      match validateLoop m rep idF (some mk') dk' ctr' rest with
      | .error (j, e, rest') => .error (j + 1, e, r2 :: rest')
      | .ok rest' => .ok (r2 :: rest')

/-- `AtlasClass._validate_and_correct_user_supplied_metadata` (project.py
lines 162-247) for a project with modality `m` and id field `idF`:
`rep` is `replace_empty_string_values_with_string_null`. -/
def validateAndCorrect (m : String) (idF : String) (rep : Bool)
    (data : List Record) : Except (Nat × VErr × List Record) (List Record) :=
  validateLoop m rep idF none [] 0 data

/-- What full validation of a single record guarantees about its final state:
a record that was missing the default id field carries an injected 36-character
identifier, and (for a text project with replacement on) every empty-string
value has become the literal string "null". -/
def recordOutcomeOk (m : String) (rep : Bool) (idF : String)
    (orig processed : Record) : Prop :=
  (lookupKey idF orig = none → idF = ATLAS_DEFAULT_ID_FIELD →
    ∃ u, lookupKey idF processed = some (.vstr u) ∧ u.length = 36)
  ∧ (m = "text" → rep = true → (orig.map Prod.fst).Nodup →
    ∀ k, (k, Value.vstr "") ∈ orig → lookupKey k processed = some (.vstr "null"))

theorem effectiveShardSize_pos (S : Nat) (hS : 1 ≤ S) : 1 ≤ effectiveShardSize S := by
  unfold effectiveShardSize
  omega

theorem lt_ceil_iff (N s j : Nat) (hs : 1 ≤ s) : j < (N + s - 1) / s ↔ j * s < N := by
  rw [Nat.lt_iff_add_one_le, Nat.le_div_iff_mul_le hs, add_mul, one_mul]
  omega

theorem shardPlan_length (N S : Nat) :
    (shardPlan N S).length = (N + effectiveShardSize S - 1) / effectiveShardSize S := by
  simp [shardPlan, shardOffsets]

theorem shardPlan_get (N S j : Nat) (h : j < (shardPlan N S).length) :
    (shardPlan N S).get ⟨j, h⟩
      = (j * effectiveShardSize S, min (j * effectiveShardSize S + effectiveShardSize S) N) := by
  simp [shardPlan, shardOffsets]

theorem shardPlan_mem (N S : Nat) (p : Nat × Nat) :
    p ∈ shardPlan N S ↔ ∃ j < (N + effectiveShardSize S - 1) / effectiveShardSize S,
      p = (j * effectiveShardSize S, min (j * effectiveShardSize S + effectiveShardSize S) N) := by
  simp only [shardPlan, shardOffsets, List.mem_map, List.mem_range]
  constructor
  · rintro ⟨i, ⟨j, hj, rfl⟩, rfl⟩
    exact ⟨j, hj, rfl⟩
  · rintro ⟨j, hj, rfl⟩
    exact ⟨j * effectiveShardSize S, ⟨j, hj, rfl⟩, rfl⟩

/-- Claim C6: for every total item count N and requested shard size S ≥ 1, the
shard plan is the ordered sequence of half-open ranges of width
s = min(S, 5000) covering [0, N): there are ceil(N/s) ranges, the j-th is
[j*s, min(j*s+s, N)), earlier ranges end no later than later ones start
(disjoint and increasing), their union is exactly [0, N), every range has
length at most s, and every non-final range has length exactly s. -/
theorem shardPlan_partition (N S : Nat) (hS : 1 ≤ S) :
    (shardPlan N S).length = (N + effectiveShardSize S - 1) / effectiveShardSize S
    ∧ (∀ j (h : j < (shardPlan N S).length),
        (shardPlan N S).get ⟨j, h⟩
          = (j * effectiveShardSize S, min (j * effectiveShardSize S + effectiveShardSize S) N))
    ∧ (∀ i j (hi : i < (shardPlan N S).length) (hj : j < (shardPlan N S).length), i < j →
        ((shardPlan N S).get ⟨i, hi⟩).2 ≤ ((shardPlan N S).get ⟨j, hj⟩).1)
    ∧ (∀ x, x < N ↔ ∃ p ∈ shardPlan N S, p.1 ≤ x ∧ x < p.2)
    ∧ (∀ p ∈ shardPlan N S, p.2 - p.1 ≤ effectiveShardSize S)
    ∧ (∀ j (h : j + 1 < (shardPlan N S).length),
        ((shardPlan N S).get ⟨j, Nat.lt_of_succ_lt h⟩).2
          - ((shardPlan N S).get ⟨j, Nat.lt_of_succ_lt h⟩).1 = effectiveShardSize S) := by
  have hs : 1 ≤ effectiveShardSize S := effectiveShardSize_pos S hS
  refine ⟨shardPlan_length N S, shardPlan_get N S, ?_, ?_, ?_, ?_⟩
  · intro i j hi hj hij
    rw [shardPlan_get, shardPlan_get]
    have h1 : i * effectiveShardSize S + effectiveShardSize S ≤ j * effectiveShardSize S := by
      have h2 : (i + 1) * effectiveShardSize S ≤ j * effectiveShardSize S :=
        Nat.mul_le_mul_right _ hij
      rw [add_mul, one_mul] at h2
      exact h2
    exact le_trans (Nat.min_le_left _ _) h1
  · intro x
    constructor
    · intro hx
      refine ⟨(x / effectiveShardSize S * effectiveShardSize S,
        min (x / effectiveShardSize S * effectiveShardSize S + effectiveShardSize S) N),
        ?_, ?_, ?_⟩
      · rw [shardPlan_mem]
        refine ⟨x / effectiveShardSize S, ?_, rfl⟩
        rw [lt_ceil_iff N (effectiveShardSize S) _ hs]
        have := Nat.div_mul_le_self x (effectiveShardSize S)
        omega
      · exact Nat.div_mul_le_self x (effectiveShardSize S)
      · have h1 := Nat.div_add_mod x (effectiveShardSize S)
        have h2 := Nat.mod_lt x hs
        have h4 : x / effectiveShardSize S * effectiveShardSize S
            = effectiveShardSize S * (x / effectiveShardSize S) := Nat.mul_comm _ _
        simp only
        refine Nat.lt_min.mpr ⟨?_, hx⟩
        omega
    · intro ⟨p, hp, h1, h2⟩
      rw [shardPlan_mem] at hp
      obtain ⟨j, hj, rfl⟩ := hp
      simp only at h2
      exact lt_of_lt_of_le h2 (Nat.min_le_right _ _)
  · intro p hp
    rw [shardPlan_mem] at hp
    obtain ⟨j, hj, rfl⟩ := hp
    simp only
    have h := Nat.min_le_left (j * effectiveShardSize S + effectiveShardSize S) N
    omega
  · intro j h
    rw [shardPlan_get]
    have hlen := shardPlan_length N S
    rw [hlen] at h
    have h3 : (j + 1) * effectiveShardSize S < N := by
      rw [← lt_ceil_iff N (effectiveShardSize S) (j + 1) hs]
      omega
    rw [add_mul, one_mul] at h3
    simp only
    omega

/-- Witness for C6 at the spec's end-to-end example: 12 records, shard size 5,
giving the plan [0:5, 5:10, 10:12] of length 3. -/
theorem shardPlan_partition_witness :
    1 ≤ 5 ∧ (shardPlan 12 5).length = (12 + effectiveShardSize 5 - 1) / effectiveShardSize 5 :=
  ⟨by decide, (shardPlan_partition 12 5 (by decide)).1⟩

theorem runLoop_unfold (s : Nat) (tr : Nat → Nat → Response) (fuel : Nat) (st : UploadState) :
    runLoop s tr (fuel + 1) st =
      if st.queue.isEmpty then .retTrue st
      else
        match processOne s tr st with
        | .next st' => runLoop s tr fuel st'
        | .retFalse st' => .retFalse st'
        | .raiseLock st' => .raisedLock st'
        | .raiseOverload st' => .raisedOverload st' := rfl

theorem runLoop_done (s : Nat) (tr : Nat → Nat → Response) (fuel : Nat) (st : UploadState)
    (h : st.queue = []) : runLoop s tr (fuel + 1) st = .retTrue st := by
  rw [runLoop_unfold, if_pos]
  rw [h]
  rfl

theorem runLoop_next (s : Nat) (tr : Nat → Nat → Response) (fuel : Nat) (st st' : UploadState)
    (h : st.queue ≠ []) (hp : processOne s tr st = .next st') :
    runLoop s tr (fuel + 1) st = runLoop s tr fuel st' := by
  rw [runLoop_unfold, if_neg, hp]
  simp [List.isEmpty_iff, h]

theorem runLoop_stopFalse (s : Nat) (tr : Nat → Nat → Response) (fuel : Nat) (st st' : UploadState)
    (h : st.queue ≠ []) (hp : processOne s tr st = .retFalse st') :
    runLoop s tr (fuel + 1) st = .retFalse st' := by
  rw [runLoop_unfold, if_neg, hp]
  simp [List.isEmpty_iff, h]

theorem runLoop_stopOverload (s : Nat) (tr : Nat → Nat → Response) (fuel : Nat)
    (st st' : UploadState) (h : st.queue ≠ []) (hp : processOne s tr st = .raiseOverload st') :
    runLoop s tr (fuel + 1) st = .raisedOverload st' := by
  rw [runLoop_unfold, if_neg, hp]
  simp [List.isEmpty_iff, h]

theorem processOne_200 (s : Nat) (tr : Nat → Nat → Response) (st : UploadState)
    (o a : Nat) (rest : List (Nat × Nat)) (hq : st.queue = (o, a) :: rest)
    (hr : (tr o a).status = 200) :
    processOne s tr st
      = .next { st with succeeded := st.succeeded + s, pbar := st.pbar + 1, queue := rest } := by
  simp [processOne, hq, hr]

theorem processOne_504 (s : Nat) (tr : Nat → Nat → Response) (st : UploadState)
    (o a : Nat) (rest : List (Nat × Nat)) (hq : st.queue = (o, a) :: rest)
    (hr : tr o a = ⟨504, none⟩) :
    processOne s tr st =
      if 4 * (st.errors504 + s) > st.failed + st.succeeded + (st.errors504 + s)
          ∧ st.errors504 + s > 3 * s then
        .raiseOverload { st with errors504 := st.errors504 + s, queue := rest }
      else
        .next { st with errors504 := st.errors504 + s, queue := rest ++ [(o, a + 1)] } := by
  simp [processOne, hq, hr]

theorem processOne_parsedDrop (s : Nat) (tr : Nat → Nat → Response) (st : UploadState)
    (o a c : Nat) (rest : List (Nat × Nat)) (b : Json)
    (hq : st.queue = (o, a) :: rest) (hr : tr o a = ⟨c, some b⟩) (hc : c ≠ 200)
    (h1 : pyIn orgLimitPhrase b = false) (h2 : pyIn lockPhrase b = false)
    (h3 : pyIn conflictPhrase b = false) :
    processOne s tr st = .next { st with queue := rest } := by
  simp [processOne, hq, hr, hc, h1, h2, h3]

theorem processOne_conflict (s : Nat) (tr : Nat → Nat → Response) (st : UploadState)
    (o a c : Nat) (rest : List (Nat × Nat)) (b : Json)
    (hq : st.queue = (o, a) :: rest) (hr : tr o a = ⟨c, some b⟩) (hc : c ≠ 200)
    (h1 : pyIn orgLimitPhrase b = false) (h2 : pyIn lockPhrase b = false)
    (h3 : pyIn conflictPhrase b = true) :
    processOne s tr st = .next { st with queue := rest ++ [(o, a)] } := by
  simp [processOne, hq, hr, hc, h1, h2, h3]

theorem processOne_orgLimit (s : Nat) (tr : Nat → Nat → Response) (st : UploadState)
    (o a c : Nat) (rest : List (Nat × Nat)) (b : Json)
    (hq : st.queue = (o, a) :: rest) (hr : tr o a = ⟨c, some b⟩) (hc : c ≠ 200)
    (h1 : pyIn orgLimitPhrase b = true) :
    processOne s tr st = .retFalse st := by
  simp [processOne, hq, hr, hc, h1]

theorem processOne_unparsedFail (s : Nat) (tr : Nat → Nat → Response) (st : UploadState)
    (o a c : Nat) (rest : List (Nat × Nat)) (hq : st.queue = (o, a) :: rest)
    (hr : tr o a = ⟨c, none⟩) (hc : c ≠ 200) (hc504 : c ≠ 504) :
    processOne s tr st
      = .next { st with failed := st.failed + s, pbar := st.pbar + 1, queue := rest } := by
  by_cases h413 : c = 413
  · simp [processOne, hq, hr, hc, h413]
  · simp [processOne, hq, hr, hc, h413, hc504]

theorem runLoop_all200 (s : Nat) (tr : Nat → Nat → Response)
    (htr : ∀ o a, (tr o a).status = 200) :
    ∀ (q : List (Nat × Nat)) (f su e p : Nat),
      runLoop s tr (q.length + 1) ⟨f, su, e, p, q⟩
        = .retTrue ⟨f, su + q.length * s, e, p + q.length, []⟩ := by
  intro q
  induction q with
  | nil => intro f su e p; simp [runLoop_done]
  | cons hd tl ih =>
    intro f su e p
    obtain ⟨o, a⟩ := hd
    rw [List.length_cons,
      runLoop_next s tr (tl.length + 1) _ ⟨f, su + s, e, p + 1, tl⟩ (by simp)
        (processOne_200 s tr _ o a tl rfl (htr o a)), ih]
    have h1 : su + s + tl.length * s = su + (tl.length + 1) * s := by
      rw [add_mul, one_mul]
      omega
    have h2 : p + 1 + tl.length = p + (tl.length + 1) := by omega
    rw [h1, h2]

theorem initUpload_queue_length (N s : Nat) :
    (initUpload N s).queue.length = (N + s - 1) / s := by
  simp [initUpload, shardOffsets]

/-- Claim C9: the tallies are advanced by the effective shard size per shard
outcome, not by the number of records in the shard: an all-200 run over N
records ends with `succeeded = ceil(N/s) * s` (and the progress indicator at
`ceil(N/s)`), which exceeds N whenever s does not divide N. -/
theorem tally_counts_shard_size_multiples (S N : Nat) (hS : 1 ≤ S) :
    runLoop (effectiveShardSize S) (fun _ _ => ⟨200, none⟩)
        ((N + effectiveShardSize S - 1) / effectiveShardSize S + 1)
        (initUpload N (effectiveShardSize S))
      = .retTrue ⟨0,
          (N + effectiveShardSize S - 1) / effectiveShardSize S * effectiveShardSize S,
          0, (N + effectiveShardSize S - 1) / effectiveShardSize S, []⟩
    ∧ (¬ effectiveShardSize S ∣ N →
        N < (N + effectiveShardSize S - 1) / effectiveShardSize S * effectiveShardSize S) := by
  have hs : 1 ≤ effectiveShardSize S := effectiveShardSize_pos S hS
  constructor
  · have h := runLoop_all200 (effectiveShardSize S) (fun _ _ => ⟨200, none⟩)
      (fun _ _ => rfl) (initUpload N (effectiveShardSize S)).queue 0 0 0 0
    rw [initUpload_queue_length] at h
    simpa [initUpload] using h
  · intro hdvd
    have hiff := lt_ceil_iff N (effectiveShardSize S)
      ((N + effectiveShardSize S - 1) / effectiveShardSize S) hs
    have hne : N ≠ (N + effectiveShardSize S - 1) / effectiveShardSize S * effectiveShardSize S := by
      intro heq
      exact hdvd ⟨(N + effectiveShardSize S - 1) / effectiveShardSize S,
        heq.trans (Nat.mul_comm _ _)⟩
    have hle : ¬ ((N + effectiveShardSize S - 1) / effectiveShardSize S * effectiveShardSize S < N) := by
      intro hlt
      exact absurd (hiff.mpr hlt) (lt_irrefl _)
    omega

/-- Witness for C9 at N = 3, S = 2: two shards, both 200, final tally
`succeeded = 4 > 3`. -/
theorem tally_counts_witness :
    1 ≤ 2 ∧
    (runLoop (effectiveShardSize 2) (fun _ _ => ⟨200, none⟩)
        ((3 + effectiveShardSize 2 - 1) / effectiveShardSize 2 + 1)
        (initUpload 3 (effectiveShardSize 2))
      = .retTrue ⟨0,
          (3 + effectiveShardSize 2 - 1) / effectiveShardSize 2 * effectiveShardSize 2,
          0, (3 + effectiveShardSize 2 - 1) / effectiveShardSize 2, []⟩
    ∧ (¬ effectiveShardSize 2 ∣ 3 →
        3 < (3 + effectiveShardSize 2 - 1) / effectiveShardSize 2 * effectiveShardSize 2)) :=
  ⟨by decide, tally_counts_shard_size_multiples 2 3 (by decide)⟩

/-- Claim C5 (code bug): with one shard failing permanently (HTTP 413,
non-JSON body) and no fatal condition, the loop falls through with
`failed = shard_size > 0`.  `add_embeddings` then logs `failed` and returns
True, as the claim says — but `add_text`'s warning f-string evaluates
`len(failed) * shard_size` where `failed` is an `int`, so the call raises
`TypeError` instead of returning True. -/
theorem addText_len_bug_vs_addEmbeddings :
    addEmbeddingsOutcome 1 (fun _ _ => ⟨413, none⟩) 2 (initUpload 1 1) = some (.ok true)
    ∧ addTextOutcome 1 (fun _ _ => ⟨413, none⟩) 2 (initUpload 1 1)
        = some (.error .typeErrorLenInt) := by
  constructor <;> rfl

theorem runLoop_conflict (s : Nat) :
    ∀ (fuel : Nat) (st : UploadState), st.queue ≠ [] →
      ∃ q', runLoop s (fun _ _ => ⟨500, some (.jstr conflictPhrase)⟩) fuel st
          = .fuelOut ⟨st.failed, st.succeeded, st.errors504, st.pbar, q'⟩ ∧ q' ≠ [] := by
  intro fuel
  induction fuel with
  | zero => intro st hq; exact ⟨st.queue, rfl, hq⟩
  | succ fuel ih =>
    intro st hq
    obtain ⟨⟨o, a⟩, rest, hcons⟩ := List.exists_cons_of_ne_nil hq
    have hstep := processOne_conflict s (fun _ _ => ⟨500, some (.jstr conflictPhrase)⟩)
      st o a 500 rest (.jstr conflictPhrase) hcons rfl (by decide)
      (by decide) (by decide) (by decide)
    rw [runLoop_next s _ fuel st _ hq hstep]
    obtain ⟨q', hrun, hq'⟩ := ih { st with queue := rest ++ [(o, a)] } (by simp)
    exact ⟨q', hrun, hq'⟩

/-- Claim C1 (code bug): when every shard-upload response is a non-200 whose
body reports an ID conflict, the `continue` in the conflict branch skips both
the tallies and `del futures[future]`, so the completed future is re-examined
forever: the call neither tallies the shard as succeeded nor terminates.  Here
a 2-record dataset with shard size 1 and every response `500` with body
`"Insert failed due to ID conflict"`: for every amount of fuel the drain loop
is still running with `succeeded = 0` and `failed = 0`, and both `add_text`
and `add_embeddings` have produced no outcome — the claim's terminating state
`succeeded == N, failed == 0` is never reached. -/
theorem idConflict_upload_never_terminates (fuel : Nat) :
    (∃ q', runLoop 1 (fun _ _ => ⟨500, some (.jstr conflictPhrase)⟩) fuel (initUpload 2 1)
        = .fuelOut ⟨0, 0, 0, 0, q'⟩ ∧ q' ≠ [])
    ∧ addTextOutcome 1 (fun _ _ => ⟨500, some (.jstr conflictPhrase)⟩) fuel
        (initUpload 2 1) = none
    ∧ addEmbeddingsOutcome 1 (fun _ _ => ⟨500, some (.jstr conflictPhrase)⟩) fuel
        (initUpload 2 1) = none := by
  obtain ⟨q', hrun, hq'⟩ := runLoop_conflict 1 fuel (initUpload 2 1) (by decide)
  refine ⟨⟨q', hrun, hq'⟩, ?_, ?_⟩
  · simp [addTextOutcome, hrun]
  · simp [addEmbeddingsOutcome, hrun]

theorem overload_run (s : Nat) (_hs : 1 ≤ s) :
    ∀ (fuel : Nat) (st : UploadState), st.failed = 0 → st.succeeded = 0 → st.queue ≠ [] →
      st.errors504 ≤ 3 * s → 3 * s < st.errors504 + fuel * s →
      ∃ st', runLoop s (fun _ _ => ⟨504, none⟩) fuel st = .raisedOverload st' := by
  intro fuel
  induction fuel with
  | zero =>
    intro st h1 h2 h3 h4 h5
    omega
  | succ fuel ih =>
    intro st h1 h2 h3 h4 h5
    obtain ⟨⟨o, a⟩, rest, hcons⟩ := List.exists_cons_of_ne_nil h3
    have hstep := processOne_504 s (fun _ _ => ⟨504, none⟩) st o a rest hcons rfl
    by_cases htrip : 3 * s < st.errors504 + s
    · rw [if_pos (by constructor <;> omega)] at hstep
      exact ⟨_, runLoop_stopOverload s _ fuel st _ h3 hstep⟩
    · rw [if_neg (by intro hb; exact absurd hb.2 (by omega))] at hstep
      rw [runLoop_next s _ fuel st _ h3 hstep]
      apply ih
      · exact h1
      · exact h2
      · simp
      · simp only
        omega
      · simp only
        have : (fuel + 1) * s = fuel * s + s := by rw [add_mul, one_mul]
        omega

/-- Claim C2 as stated is false on the code: it asserts resubmission for
every HTTP 504 response, but the 504 handler lives inside
`except JSONDecodeError`, so a 504 whose body parses as JSON is never
resubmitted.  Concretely, with a single shard (shard size 1) answered by
HTTP 504 with the parseable body `{}`: the step drops the shard — the queue
empties with no new `(offset, attempt+1)` task and the transient tally stays
0, instead of the resubmission and `errors_504 += shard_size` the claim
requires — and the call then terminates at once with all tallies zero and
returns True, so no overload check can ever fire. -/
theorem retry504_parsed_body_counterexample :
    processOne 1 (fun _ _ => ⟨504, some (.jobj [])⟩) ⟨0, 0, 0, 0, [(0, 0)]⟩
      = .next ⟨0, 0, 0, 0, []⟩
    ∧ runLoop 1 (fun _ _ => ⟨504, some (.jobj [])⟩) 2 (initUpload 1 1)
      = .retTrue ⟨0, 0, 0, 0, []⟩
    ∧ addTextOutcome 1 (fun _ _ => ⟨504, some (.jobj [])⟩) 2 (initUpload 1 1)
      = some (.ok true)
    ∧ addEmbeddingsOutcome 1 (fun _ _ => ⟨504, some (.jobj [])⟩) 2 (initUpload 1 1)
      = some (.ok true) :=
  ⟨rfl, rfl, rfl, rfl⟩

/-- Claim C2, amended: the claim as written covers every HTTP 504, but the
504 handler sits inside `except JSONDecodeError`
(project.py lines 1122-1142 / 1273-1293), so it only fires when the response
body fails to parse as JSON — see `retry504_parsed_body_counterexample` for a
parseable-body 504 that is dropped instead.  With that condition added, the
claim holds: a 504 response whose body does not parse resubmits the identical
shard offset as a new future, for every attempt number — there is no
per-shard retry cap — and after incrementing the transient tally the
coordinator checks `errors_504/(failed+succeeded+errors_504) > 0.25` together
with `errors_504 > 3*shard_size`; when the check fires it raises the
overload error instead of resubmitting, ending the drain loop so no new
shard is submitted.  Run-level: on a transport answering an unparseable 504
to everything, a call over P shards raises the overload error (on the fourth
transient event, within 4 drain steps). -/
theorem retry504_unbounded_and_overload_abort (s : Nat) (hs : 1 ≤ s) :
    (∀ (tr : Nat → Nat → Response) (st : UploadState) (o a : Nat) (rest : List (Nat × Nat)),
      st.queue = (o, a) :: rest → tr o a = ⟨504, none⟩ →
      processOne s tr st =
        if 4 * (st.errors504 + s) > st.failed + st.succeeded + (st.errors504 + s)
            ∧ st.errors504 + s > 3 * s then
          .raiseOverload { st with errors504 := st.errors504 + s, queue := rest }
        else
          .next { st with errors504 := st.errors504 + s, queue := rest ++ [(o, a + 1)] })
    ∧ (∀ P, 1 ≤ P →
        ∃ st', runLoop s (fun _ _ => ⟨504, none⟩) 4 (initUpload (P * s) s)
          = .raisedOverload st') := by
  constructor
  · intro tr st o a rest hq hr
    exact processOne_504 s tr st o a rest hq hr
  · intro P hP
    apply overload_run s hs 4 (initUpload (P * s) s) rfl rfl
    · have hlen : ((initUpload (P * s) s).queue).length = P := by
        rw [initUpload_queue_length]
        have h1 : P * s + s - 1 = (s - 1) + P * s := by omega
        rw [h1, Nat.add_mul_div_right _ _ hs, Nat.div_eq_of_lt (by omega)]
        omega
      intro hnil
      rw [hnil] at hlen
      simp at hlen
      omega
    · show (0 : Nat) ≤ 3 * s
      omega
    · show 3 * s < 0 + 4 * s
      omega

/-- Witness for C2: shard size 1, one shard, all responses 504 with
unparseable body — the overload error is raised within 4 drain steps. -/
theorem retry504_overload_witness :
    1 ≤ 1 ∧ ∃ st', runLoop 1 (fun _ _ => ⟨504, none⟩) 4 (initUpload (1 * 1) 1)
      = .raisedOverload st' :=
  ⟨by decide, (retry504_unbounded_and_overload_abort 1 (by decide)).2 1 (by decide)⟩

/-- Claim C3: the progress indicator advances only at a shard's terminal
outcome, never on a 504 retry: any 504 (unparseable body) step that continues
the loop leaves `pbar`, `succeeded` and `failed` unchanged; and on a transport
answering 504 on the first two attempts and 200 on the third, a single-shard
call ends with exactly one success tallied for the shard
(`succeeded = shard_size`, `failed = 0`) and the progress indicator advanced
exactly once (`pbar = 1`), not three times. -/
theorem progress_once_per_terminal_outcome (s : Nat) (hs : 1 ≤ s) :
    (∀ (tr : Nat → Nat → Response) (st st' : UploadState) (o a : Nat)
        (rest : List (Nat × Nat)),
      st.queue = (o, a) :: rest → tr o a = ⟨504, none⟩ →
      processOne s tr st = .next st' →
      st'.pbar = st.pbar ∧ st'.succeeded = st.succeeded ∧ st'.failed = st.failed)
    ∧ runLoop s (fun _ a => if a < 2 then ⟨504, none⟩ else ⟨200, none⟩) 4 (initUpload s s)
        = .retTrue ⟨0, s, 2 * s, 1, []⟩ := by
  constructor
  · intro tr st st' o a rest hq hr hstep
    rw [processOne_504 s tr st o a rest hq hr] at hstep
    split at hstep
    · cases hstep
    · injection hstep with h
      subst h
      exact ⟨rfl, rfl, rfl⟩
  · have hqueue : initUpload s s = ⟨0, 0, 0, 0, [(0, 0)]⟩ := by
      have hK : (s + s - 1) / s = 1 := by
        have h1 : s + s - 1 = (s - 1) + 1 * s := by omega
        rw [h1, Nat.add_mul_div_right _ _ hs, Nat.div_eq_of_lt (by omega)]
      have hr1 : List.range 1 = [0] := rfl
      simp [initUpload, shardOffsets, hK, hr1, Function.comp]
    rw [hqueue]
    have e1 : runLoop s (fun _ a => if a < 2 then ⟨504, none⟩ else ⟨200, none⟩) 4
        ⟨0, 0, 0, 0, [(0, 0)]⟩
        = runLoop s (fun _ a => if a < 2 then ⟨504, none⟩ else ⟨200, none⟩) 3
          ⟨0, 0, 0 + s, 0, [(0, 1)]⟩ := by
      apply runLoop_next s _ 3 _ _ (by simp)
      rw [processOne_504 s _ _ 0 0 [] rfl rfl, if_neg (by simp only; omega)]
      rfl
    have e2 : runLoop s (fun _ a => if a < 2 then ⟨504, none⟩ else ⟨200, none⟩) 3
        ⟨0, 0, 0 + s, 0, [(0, 1)]⟩
        = runLoop s (fun _ a => if a < 2 then ⟨504, none⟩ else ⟨200, none⟩) 2
          ⟨0, 0, 0 + s + s, 0, [(0, 2)]⟩ := by
      apply runLoop_next s _ 2 _ _ (by simp)
      rw [processOne_504 s _ _ 0 1 [] rfl rfl, if_neg (by simp only; omega)]
      rfl
    have e3 : runLoop s (fun _ a => if a < 2 then ⟨504, none⟩ else ⟨200, none⟩) 2
        ⟨0, 0, 0 + s + s, 0, [(0, 2)]⟩
        = runLoop s (fun _ a => if a < 2 then ⟨504, none⟩ else ⟨200, none⟩) 1
          ⟨0, 0 + s, 0 + s + s, 0 + 1, []⟩ := by
      apply runLoop_next s _ 1 _ _ (by simp)
      rw [processOne_200 s _ _ 0 2 [] rfl rfl]
    have e4 : runLoop s (fun _ a => if a < 2 then ⟨504, none⟩ else ⟨200, none⟩) 1
        ⟨0, 0 + s, 0 + s + s, 0 + 1, []⟩
        = .retTrue ⟨0, 0 + s, 0 + s + s, 0 + 1, []⟩ :=
      runLoop_done s _ 0 _ rfl
    rw [e1, e2, e3, e4]
    have hst : (⟨0, 0 + s, 0 + s + s, 0 + 1, []⟩ : UploadState) = ⟨0, s, 2 * s, 1, []⟩ := by
      simp [UploadState.mk.injEq]
      omega
    rw [hst]

/-- Witness for C3 at shard size 1. -/
theorem progress_once_witness :
    1 ≤ 1 ∧
    ((∀ (tr : Nat → Nat → Response) (st st' : UploadState) (o a : Nat)
        (rest : List (Nat × Nat)),
      st.queue = (o, a) :: rest → tr o a = ⟨504, none⟩ →
      processOne 1 tr st = .next st' →
      st'.pbar = st.pbar ∧ st'.succeeded = st.succeeded ∧ st'.failed = st.failed)
    ∧ runLoop 1 (fun _ a => if a < 2 then ⟨504, none⟩ else ⟨200, none⟩) 4 (initUpload 1 1)
        = .retTrue ⟨0, 1, 2 * 1, 1, []⟩) :=
  ⟨by decide, progress_once_per_terminal_outcome 1 (by decide)⟩

theorem runLoop_parsed413 (s : Nat) :
    ∀ (q : List (Nat × Nat)) (f su e p : Nat),
      runLoop s (fun _ _ => ⟨413, some (.jobj [])⟩) (q.length + 1) ⟨f, su, e, p, q⟩
        = .retTrue ⟨f, su, e, p, []⟩ := by
  intro q
  induction q with
  | nil => intro f su e p; simp [runLoop_done]
  | cons hd tl ih =>
    intro f su e p
    obtain ⟨o, a⟩ := hd
    rw [List.length_cons,
      runLoop_next s _ (tl.length + 1) _ ⟨f, su, e, p, tl⟩ (by simp)
        (processOne_parsedDrop s _ _ o a 413 tl (.jobj []) rfl rfl (by decide)
          rfl rfl rfl), ih]

/-- Claim C8: a non-200 response whose body parses as JSON but contains none
of the three known failure phrases falls through the `try` block with no
action: the shard is dropped with no tally change, no retry and no progress
advance — in particular this holds for statuses 413 and 504, whose handling
branches sit in the `except JSONDecodeError` clause and are therefore only
reachable when the body fails to parse.  Run-level: a call in which every
shard answers 413 with a parseable JSON body terminates with all tallies and
the progress count still zero. -/
theorem parsed_error_body_silently_dropped (s : Nat) :
    (∀ (tr : Nat → Nat → Response) (st : UploadState) (o a c : Nat)
        (rest : List (Nat × Nat)) (b : Json),
      st.queue = (o, a) :: rest → tr o a = ⟨c, some b⟩ → c ≠ 200 →
      pyIn orgLimitPhrase b = false → pyIn lockPhrase b = false →
      pyIn conflictPhrase b = false →
      processOne s tr st = .next { st with queue := rest })
    ∧ (∀ N : Nat,
        runLoop s (fun _ _ => ⟨413, some (.jobj [])⟩)
            ((initUpload N s).queue.length + 1) (initUpload N s)
          = .retTrue ⟨0, 0, 0, 0, []⟩) := by
  constructor
  · intro tr st o a c rest b hq hr hc h1 h2 h3
    exact processOne_parsedDrop s tr st o a c rest b hq hr hc h1 h2 h3
  · intro N
    exact runLoop_parsed413 s (initUpload N s).queue 0 0 0 0

/-- Witness for C8: one shard, response 413 with the parseable body `{}` —
the step drops the shard, leaving tallies and progress untouched. -/
theorem parsed_error_body_witness :
    (413 ≠ 200) ∧ pyIn orgLimitPhrase (.jobj []) = false ∧
    processOne 1 (fun _ _ => ⟨413, some (.jobj [])⟩) ⟨0, 0, 0, 0, [(0, 0)]⟩
      = .next ⟨0, 0, 0, 0, []⟩ :=
  ⟨by decide, by decide,
    (parsed_error_body_silently_dropped 1).1 (fun _ _ => ⟨413, some (.jobj [])⟩)
      ⟨0, 0, 0, 0, [(0, 0)]⟩ 0 0 413 [] (.jobj []) rfl rfl (by decide) rfl rfl rfl⟩

/-- Claim C4 as stated is false on the code: the coordinator classifies a
failure body with the Python membership test
`'more datums exceeds your organization limit' in response.json()`, which is
a key-membership test when the parsed body is a JSON object.  Here a shard's
response body is `{"detail": "Inserting these more datums exceeds your
organization limit."}` — its raw text contains the exact substring — yet the
phrase is not a key of the object, so the shard is silently dropped and both
`add_text` and `add_embeddings` return True, not False. -/
theorem orgLimit_substring_counterexample :
    infixB orgLimitPhrase.data (Json.rawText (Json.jobj [("detail",
      "Inserting these more datums exceeds your organization limit.")])).data = true
    ∧ addTextOutcome 1 (fun _ _ => ⟨422, some (.jobj [("detail",
        "Inserting these more datums exceeds your organization limit.")])⟩) 2
        (initUpload 1 1) = some (.ok true)
    ∧ addEmbeddingsOutcome 1 (fun _ _ => ⟨422, some (.jobj [("detail",
        "Inserting these more datums exceeds your organization limit.")])⟩) 2
        (initUpload 1 1) = some (.ok true) := by
  refine ⟨by decide, rfl, rfl⟩

/-- Claim C4, amended: whenever a shard's non-200 response has a parsed JSON
body on which the Python membership test for the organization-limit phrase
succeeds (the body is a JSON string containing the phrase as a substring, or
a JSON object with the exact phrase as a key), the coordinator immediately
executes `return False`: the drain loop ends, no further shard is submitted
(in-flight work is joined by the executor's context manager), and the overall
call returns False. -/
theorem orgLimit_membership_aborts (s fuel : Nat) (tr : Nat → Nat → Response)
    (st : UploadState) (o a c : Nat) (rest : List (Nat × Nat)) (b : Json)
    (hq : st.queue = (o, a) :: rest) (hr : tr o a = ⟨c, some b⟩) (hc : c ≠ 200)
    (h1 : pyIn orgLimitPhrase b = true) :
    runLoop s tr (fuel + 1) st = .retFalse st
    ∧ addTextOutcome s tr (fuel + 1) st = some (.ok false)
    ∧ addEmbeddingsOutcome s tr (fuel + 1) st = some (.ok false) := by
  have hne : st.queue ≠ [] := by rw [hq]; exact List.cons_ne_nil _ _
  have hrun := runLoop_stopFalse s tr fuel st st hne
    (processOne_orgLimit s tr st o a c rest b hq hr hc h1)
  exact ⟨hrun, by simp [addTextOutcome, hrun], by simp [addEmbeddingsOutcome, hrun]⟩

/-- Witness for the amended C4: a string body consisting of the phrase
itself; the call returns False at once. -/
theorem orgLimit_membership_witness :
    (422 ≠ 200) ∧ pyIn orgLimitPhrase (.jstr orgLimitPhrase) = true ∧
    (runLoop 1 (fun _ _ => ⟨422, some (.jstr orgLimitPhrase)⟩) 1 ⟨0, 0, 0, 0, [(0, 0)]⟩
        = .retFalse ⟨0, 0, 0, 0, [(0, 0)]⟩
      ∧ addTextOutcome 1 (fun _ _ => ⟨422, some (.jstr orgLimitPhrase)⟩) 1
          ⟨0, 0, 0, 0, [(0, 0)]⟩ = some (.ok false)
      ∧ addEmbeddingsOutcome 1 (fun _ _ => ⟨422, some (.jstr orgLimitPhrase)⟩) 1
          ⟨0, 0, 0, 0, [(0, 0)]⟩ = some (.ok false)) :=
  ⟨by decide, by decide,
    orgLimit_membership_aborts 1 0 _ _ 0 0 422 [] (.jstr orgLimitPhrase)
      rfl rfl (by decide) (by decide)⟩

theorem hexChars_length : ∀ (w n : Nat), (hexChars n w).length = w := by
  intro w
  induction w with
  | zero => intro n; rfl
  | succ w ih =>
    intro n
    simp [hexChars, ih]

theorem uuid4_length (ctr : Nat) : (uuid4 ctr).length = 36 := by
  simp [uuid4, String.length, hexChars_length]

theorem uuid4_ne_empty (ctr : Nat) : uuid4 ctr ≠ "" := by
  intro h
  have := uuid4_length ctr
  rw [h] at this
  simp [String.length] at this

theorem lookupKey_append_left (k : String) (v : Value) :
    ∀ (xs ys : Record), lookupKey k xs = some v → lookupKey k (xs ++ ys) = some v := by
  intro xs
  induction xs with
  | nil => intro ys h; cases h
  | cons hd tl ih =>
    intro ys h
    obtain ⟨kh, vh⟩ := hd
    by_cases hk : kh = k
    · simp [lookupKey, hk] at h ⊢
      exact h
    · simp [lookupKey, hk] at h ⊢
      exact ih ys h

theorem lookupKey_append_right (k : String) :
    ∀ (xs ys : Record), lookupKey k xs = none → lookupKey k (xs ++ ys) = lookupKey k ys := by
  intro xs
  induction xs with
  | nil => intro ys _; rfl
  | cons hd tl ih =>
    intro ys h
    obtain ⟨kh, vh⟩ := hd
    by_cases hk : kh = k
    · simp [lookupKey, hk] at h
    · simp [lookupKey, hk] at h ⊢
      exact ih ys h

theorem lookupKey_of_mem_nodup (k : String) (v : Value) :
    ∀ (l : Record), (k, v) ∈ l → (l.map Prod.fst).Nodup → lookupKey k l = some v := by
  intro l
  induction l with
  | nil => intro h _; cases h
  | cons hd tl ih =>
    intro hmem hnd
    obtain ⟨kh, vh⟩ := hd
    rw [List.map_cons, List.nodup_cons] at hnd
    rw [List.mem_cons] at hmem
    cases hmem with
    | inl he =>
      rw [Prod.mk.injEq] at he
      obtain ⟨h1, h2⟩ := he
      subst h1; subst h2
      simp [lookupKey]
    | inr hm =>
      by_cases hk : kh = k
      · subst hk
        exact absurd (List.mem_map_of_mem Prod.fst hm) hnd.1
      · simp [lookupKey, hk]
        exact ih hm hnd.2

theorem processEntry_ok_cases (m : String) (rep : Bool) (dk : List String)
    (k : String) (v : Value) (kv' : String × Value)
    (h : processEntry m rep dk (k, v) = .ok kv') :
    (m = "text" ∧ rep = true ∧ v = .vstr "" ∧ kv' = (k, .vstr "null"))
    ∨ (¬ (m = "text" ∧ v = .vstr "") ∧ kv' = (k, v)) := by
  unfold processEntry at h
  split_ifs at h with h1 h2 h3 h4
  · exact .inl ⟨h3.1, h4, h3.2, by injection h with h'; exact h'.symm⟩
  · cases v with
    | vstr s => exact .inr ⟨h3, by injection h with h'; exact h'.symm⟩
    | vint n => exact .inr ⟨h3, by injection h with h'; exact h'.symm⟩
    | vfloat sr => exact .inr ⟨h3, by injection h with h'; exact h'.symm⟩
    | vother sr => cases h

theorem processEntry_key_eq (m : String) (rep : Bool) (dk : List String)
    (k : String) (v : Value) (kv' : String × Value)
    (h : processEntry m rep dk (k, v) = .ok kv') : kv'.1 = k := by
  rcases processEntry_ok_cases m rep dk k v kv' h with ⟨_, _, _, hk⟩ | ⟨_, hk⟩ <;>
    rw [hk]

theorem lookupKey_forall₂ (R : (String × Value) → (String × Value) → Prop)
    (hkey : ∀ x y, R x y → y.1 = x.1) :
    ∀ (l l' : Record), List.Forall₂ R l l' → ∀ (k : String) (v : Value),
      lookupKey k l = some v → ∃ v', lookupKey k l' = some v' ∧ R (k, v) (k, v') := by
  intro l
  induction l with
  | nil =>
    intro l' hf k v h
    cases hf
    cases h
  | cons hd tl ih =>
    intro l' hf k v h
    cases hf with
    | cons hR htl =>
      rename_i b bs
      obtain ⟨ka, va⟩ := hd
      obtain ⟨kb, vb⟩ := b
      have hkb : kb = ka := hkey _ _ hR
      by_cases hk : ka = k
      · simp only [lookupKey, if_pos hk] at h
        injection h with hva
        refine ⟨vb, by simp only [lookupKey, if_pos (hkb.trans hk)], ?_⟩
        rw [← hk, ← hva]
        rw [hkb] at hR
        exact hR
      · simp only [lookupKey, if_neg hk] at h
        obtain ⟨v', hl', hR'⟩ := ih bs htl k v h
        refine ⟨v', ?_, hR'⟩
        have hk' : ¬ kb = k := by rw [hkb]; exact hk
        simp only [lookupKey, if_neg hk']
        exact hl'

theorem processKeys_ok (m : String) (rep : Bool) (dk : List String) :
    ∀ (l acc out : Record), processKeys m rep dk acc l = .ok out →
      ∃ l', out = acc ++ l'
        ∧ List.Forall₂ (fun x y => processEntry m rep dk x = .ok y) l l' := by
  intro l
  induction l with
  | nil =>
    intro acc out h
    simp [processKeys] at h
    exact ⟨[], by simp [h], List.Forall₂.nil⟩
  | cons kv rest ih =>
    intro acc out h
    rw [processKeys] at h
    cases he : processEntry m rep dk kv with
    | error e => rw [he] at h; cases h
    | ok kv' =>
      rw [he] at h
      obtain ⟨l', hout, hf⟩ := ih (acc ++ [kv']) out h
      exact ⟨kv' :: l', by simp [hout], List.Forall₂.cons he hf⟩

theorem injectId_shape (idF : String) (ctr : Nat) (r r1 : Record) (c : Nat)
    (h : injectId idF ctr r = .ok (r1, c)) : ∃ t, r1 = r ++ t := by
  cases hl : lookupKey idF r with
  | some v =>
    simp only [injectId, hl] at h
    split_ifs at h
    exact ⟨[], by injection h with h'; rw [Prod.mk.injEq] at h'; simp [h'.1.symm]⟩
  | none =>
    simp only [injectId, hl] at h
    split_ifs at h
    exact ⟨[(idF, .vstr (uuid4 ctr))],
      by injection h with h'; rw [Prod.mk.injEq] at h'; exact h'.1.symm⟩

theorem recordOutcome_of_parts (m : String) (rep : Bool) (idF : String) (dk' : List String)
    (ctr ctr1 : Nat) (r r1 r2 : Record)
    (hinj : injectId idF ctr r = .ok (r1, ctr1))
    (hpk : processKeys m rep dk' [] r1 = .ok r2) :
    recordOutcomeOk m rep idF r r2 := by
  obtain ⟨l', hout, hf⟩ := processKeys_ok m rep dk' r1 [] r2 hpk
  rw [List.nil_append] at hout
  subst hout
  have hkey : ∀ x y, processEntry m rep dk' x = .ok y → y.1 = x.1 := by
    intro x y hxy
    obtain ⟨kx, vx⟩ := x
    exact processEntry_key_eq m rep dk' kx vx y hxy
  constructor
  · intro hnone hdef
    have hr1 : r1 = r ++ [(idF, .vstr (uuid4 ctr))] := by
      simp only [injectId, hnone, if_pos hdef] at hinj
      injection hinj with h'
      rw [Prod.mk.injEq] at h'
      exact h'.1.symm
    have hlk1 : lookupKey idF r1 = some (.vstr (uuid4 ctr)) := by
      rw [hr1, lookupKey_append_right idF r _ hnone]
      simp [lookupKey]
    obtain ⟨v', hlk2, hR⟩ := lookupKey_forall₂ _ hkey r1 r2 hf idF _ hlk1
    rcases processEntry_ok_cases m rep dk' idF (.vstr (uuid4 ctr)) (idF, v') hR with
      ⟨_, _, hv, _⟩ | ⟨_, hkv⟩
    · exfalso
      injection hv with hv'
      exact uuid4_ne_empty ctr hv'
    · rw [Prod.mk.injEq] at hkv
      exact ⟨uuid4 ctr, by rw [hlk2, hkv.2], uuid4_length ctr⟩
  · intro hm hrep hnd k hkmem
    have hlk0 : lookupKey k r = some (.vstr "") := lookupKey_of_mem_nodup k _ r hkmem hnd
    obtain ⟨t, ht⟩ := injectId_shape idF ctr r r1 ctr1 hinj
    have hlk1 : lookupKey k r1 = some (.vstr "") := by
      rw [ht]
      exact lookupKey_append_left k _ r t hlk0
    obtain ⟨v', hlk2, hR⟩ := lookupKey_forall₂ _ hkey r1 r2 hf k _ hlk1
    rcases processEntry_ok_cases m rep dk' k (.vstr "") (k, v') hR with
      ⟨_, _, _, hkv⟩ | ⟨hcon, _⟩
    · rw [Prod.mk.injEq] at hkv
      rw [hlk2, hkv.2]
    · exact absurd ⟨hm, rfl⟩ hcon

theorem processDatum_outcome (m : String) (rep : Bool) (idF : String)
    (mk : Option (List String)) (dk : List String) (ctr : Nat) (r : Record)
    (out : Record × List String × List String × Nat)
    (h : processDatum m rep idF mk dk ctr r = .ok out) :
    recordOutcomeOk m rep idF r out.1 := by
  cases hinj : injectId idF ctr r with
  | error e => simp [processDatum, hinj] at h
  | ok p =>
    obtain ⟨r1, ctr1⟩ := p
    simp only [processDatum, hinj] at h
    split at h
    · cases h
    · split at h
      · cases h
      · rename_i r2 hpk
        injection h with h'
        rw [← h']
        exact recordOutcome_of_parts m rep idF _ ctr ctr1 r r1 r2 hinj hpk

theorem validateLoop_error (m : String) (rep : Bool) (idF : String) :
    ∀ (l : List Record) (mk : Option (List String)) (dk : List String) (ctr : Nat)
      (j : Nat) (e : VErr) (l' : List Record),
      validateLoop m rep idF mk dk ctr l = .error (j, e, l') →
      l'.length = l.length ∧ j < l.length ∧
      ∀ i (hi : i < j) (h1 : i < l.length) (h2 : i < l'.length),
        ∃ (mki : Option (List String)) (dki : List String) (ctri : Nat)
          (out : Record × List String × List String × Nat),
          processDatum m rep idF mki dki ctri (l.get ⟨i, h1⟩) = .ok out
          ∧ l'.get ⟨i, h2⟩ = out.1 := by
  intro l
  induction l with
  | nil =>
    intro mk dk ctr j e l' h
    simp [validateLoop] at h
  | cons r rest ih =>
    intro mk dk ctr j e l' h
    rw [validateLoop] at h
    cases hd : processDatum m rep idF mk dk ctr r with
    | error p =>
      obtain ⟨e0, r0⟩ := p
      rw [hd] at h
      injection h with h'
      rw [Prod.mk.injEq, Prod.mk.injEq] at h'
      obtain ⟨hj, _, hl'⟩ := h'
      subst hj
      subst hl'
      refine ⟨by simp, by simp, ?_⟩
      intro i hi h1 h2
      omega
    | ok o =>
      obtain ⟨r2, mk', dk', ctr'⟩ := o
      rw [hd] at h
      replace h : (match validateLoop m rep idF (some mk') dk' ctr' rest with
        | .error (j, e, rest') => (.error (j + 1, e, r2 :: rest') :
            Except (Nat × VErr × List Record) (List Record))
        | .ok rest' => .ok (r2 :: rest')) = .error (j, e, l') := h
      cases hrec : validateLoop m rep idF (some mk') dk' ctr' rest with
      | ok res => rw [hrec] at h; cases h
      | error q =>
        obtain ⟨j0, e0, rest'⟩ := q
        rw [hrec] at h
        injection h with h'
        rw [Prod.mk.injEq, Prod.mk.injEq] at h'
        obtain ⟨hj, he, hl'⟩ := h'
        subst hj
        subst he
        subst hl'
        obtain ⟨hlen, hjlt, hprop⟩ := ih (some mk') dk' ctr' j0 e0 rest' hrec
        refine ⟨by simp [hlen], by simp; omega, ?_⟩
        intro i hi h1 h2
        cases i with
        | zero => exact ⟨mk, dk, ctr, (r2, mk', dk', ctr'), hd, rfl⟩
        | succ i0 =>
          obtain ⟨mki, dki, ctri, out, hok, hget⟩ :=
            hprop i0 (by omega) (by simp at h1; omega) (by simp at h2; omega)
          exact ⟨mki, dki, ctri, out, hok, hget⟩

/-- Claim C10: metadata validation mutates the caller's records in place while
iterating and is not atomic on error: when validation raises at the j-th
record, the batch retains the mutations to all earlier records — every record
before index j that was missing the default id field keeps its injected
36-character identifier, and (text project, replacement flag on) every
empty-string value it held has become the literal string "null". -/
theorem validator_mutation_not_atomic (m : String) (idF : String) (rep : Bool)
    (data : List Record) (j : Nat) (e : VErr) (l' : List Record)
    (h : validateAndCorrect m idF rep data = .error (j, e, l')) :
    l'.length = data.length ∧ j < data.length ∧
    ∀ i (hi : i < j) (h1 : i < data.length) (h2 : i < l'.length),
      recordOutcomeOk m rep idF (data.get ⟨i, h1⟩) (l'.get ⟨i, h2⟩) := by
  obtain ⟨hlen, hj, hprop⟩ := validateLoop_error m rep idF data none [] 0 j e l' h
  refine ⟨hlen, hj, ?_⟩
  intro i hi h1 h2
  obtain ⟨mki, dki, ctri, out, hok, hget⟩ := hprop i hi h1 h2
  rw [hget]
  exact processDatum_outcome m rep idF mki dki ctri _ out hok

/-- Claim C7: for a record lacking the project's id field, the validator
injects a freshly generated 36-character UUID-v4-format identifier into the
record (appended, as Python dicts append new keys) exactly when the project's
id field is the default id-field name; under a custom id-field name,
validation of that record fails with the missing-required-field error
(in the Python source, the f-string building the error message itself trips
on the absent key, so the raise happens at that same point either way). -/
theorem validator_id_injection (idF : String) (ctr : Nat) (r : Record)
    (hnone : lookupKey idF r = none) :
    (idF = ATLAS_DEFAULT_ID_FIELD →
      injectId idF ctr r = .ok (r ++ [(idF, .vstr (uuid4 ctr))], ctr + 1)
      ∧ (uuid4 ctr).length = 36)
    ∧ (idF ≠ ATLAS_DEFAULT_ID_FIELD →
      ∀ (m : String) (rep : Bool) (mk : Option (List String)) (dk : List String),
        processDatum m rep idF mk dk ctr r = .error (.missingRequiredField, r)) := by
  constructor
  · intro hdef
    subst hdef
    exact ⟨by simp [injectId, hnone], uuid4_length ctr⟩
  · intro hne m rep mk dk
    simp [processDatum, injectId, hnone, hne]

/-- Witness for C7: injection happens on a record without the default id
field; with a custom id-field name the same record fails validation. -/
theorem validator_id_injection_witness :
    (lookupKey ATLAS_DEFAULT_ID_FIELD ([("text", Value.vstr "hello")] : Record) = none
      ∧ (ATLAS_DEFAULT_ID_FIELD = ATLAS_DEFAULT_ID_FIELD →
          injectId ATLAS_DEFAULT_ID_FIELD 0 [("text", Value.vstr "hello")]
            = .ok ([("text", Value.vstr "hello")]
                ++ [(ATLAS_DEFAULT_ID_FIELD, Value.vstr (uuid4 0))], 0 + 1)
          ∧ (uuid4 0).length = 36))
    ∧ (lookupKey "my_id" ([("text", Value.vstr "hello")] : Record) = none
      ∧ ("my_id" ≠ ATLAS_DEFAULT_ID_FIELD →
          ∀ (m : String) (rep : Bool) (mk : Option (List String)) (dk : List String),
            processDatum m rep "my_id" mk dk 0 [("text", Value.vstr "hello")]
              = .error (.missingRequiredField, [("text", Value.vstr "hello")]))) :=
  ⟨⟨by decide, (validator_id_injection ATLAS_DEFAULT_ID_FIELD 0
      [("text", Value.vstr "hello")] (by decide)).1⟩,
   ⟨by decide, (validator_id_injection "my_id" 0
      [("text", Value.vstr "hello")] (by decide)).2⟩⟩

/-- Witness for C10: a text-modality batch of two records under the default
id field with replacement on; record 0 is missing the id field and holds an
empty string, record 1 has a different key set.  Validation raises the schema
mismatch at record 1, and the list the caller retains has record 0 fully
mutated: empty string replaced by "null" and a fresh id injected. -/
theorem validator_mutation_witness :
    validateAndCorrect "text" ATLAS_DEFAULT_ID_FIELD true
        [[("text", Value.vstr "")], [("other", Value.vstr "x")]]
      = .error (1, .schemaMismatch,
          [[("text", Value.vstr "null"), (ATLAS_DEFAULT_ID_FIELD, Value.vstr (uuid4 0))],
           [("other", Value.vstr "x"), (ATLAS_DEFAULT_ID_FIELD, Value.vstr (uuid4 1))]])
    ∧ recordOutcomeOk "text" true ATLAS_DEFAULT_ID_FIELD
        [("text", Value.vstr "")]
        [("text", Value.vstr "null"), (ATLAS_DEFAULT_ID_FIELD, Value.vstr (uuid4 0))] :=
  ⟨rfl,
    (validator_mutation_not_atomic "text" ATLAS_DEFAULT_ID_FIELD true
      [[("text", Value.vstr "")], [("other", Value.vstr "x")]] 1 .schemaMismatch
      [[("text", Value.vstr "null"), (ATLAS_DEFAULT_ID_FIELD, Value.vstr (uuid4 0))],
       [("other", Value.vstr "x"), (ATLAS_DEFAULT_ID_FIELD, Value.vstr (uuid4 1))]]
      rfl).2.2 0 (by decide) (by decide) (by decide)⟩
